import Mathlib

/-!
Verification of the fuwa event service core (`server/events.go` together with
the sqlc queries over the `events` table and the `events` table schema).

The Go service is embedded shallowly:
* the `events` table is a list of `StoredEvent` rows (append order = insert order);
* the sqlc queries `GetLatestSequence`, `GetEvents` become pure functions; SQL
  `ORDER BY sequence ASC` is modelled with `List.insertionSort`;
* Go maps `map[string]string` become association lists; the Go indexing
  `m[key]`, which yields the zero value `""` for an absent key, becomes
  `lookupOrEmpty`;
* gRPC status errors become an error structure carrying a code and message;
* the nondeterministic pieces of `Publish` (generated event id, current time)
  become explicit parameters;
* concurrency (claims about interleaved `Publish` / `Subscribe` calls) is
  modelled with a small-step relation in which the two database accesses of
  one `Publish` (`GetLatestSequence` read, `CreateEvent` insert) are separate
  atomic steps, exactly as in the Go code, which holds no lock between them.
-/

namespace Fuwa

/-- A row of the `events` table (schema in the migration file):
`event_id TEXT PRIMARY KEY, event_type, scope, actor_id, timestamp INTEGER,
payload TEXT NULL, metadata TEXT NULL, sequence INTEGER`.  Metadata is stored
as JSON text in SQLite; here it is kept in structured form (an association
list), since `Publish` marshals a `map[string]string` and `dbEventToProto`
unmarshals it back. -/
structure StoredEvent where
  event_id : String
  event_type : String
  scope : String
  actor_id : String
  timestamp : Int
  payload : Option String
  metadata : List (String × String)
  sequence : Int
deriving DecidableEq, Repr

/-- gRPC status codes used by the event service (`codes.InvalidArgument`,
`codes.Internal`; `codes.AlreadyExists` is the gRPC rendering of a
"Conflict" error). -/
inductive GrpcCode
  | invalidArgument
  | internal
  | alreadyExists
deriving DecidableEq, Repr

/-- A gRPC status error: code plus message. -/
structure GrpcError where
  code : GrpcCode
  msg : String
deriving DecidableEq, Repr

/-- Go `m[key]` on a `map[string]string`: the stored value, or the zero
value `""` when the key is absent. -/
def lookupOrEmpty (m : List (String × String)) (k : String) : String :=
  match m.find? (fun p => p.1 = k) with
  | some p => p.2
  | none => ""

/-- sqlc query `GetLatestSequence`:
`SELECT COALESCE(MAX(sequence), 0) FROM events WHERE scope = ?`.
`MAX` over the scope's rows, `0` when the scope has no rows. -/
def getLatestSequence (store : List StoredEvent) (scope : String) : Int :=
  match (store.filter (fun e => e.scope = scope)).map (fun e => e.sequence) with
  | [] => 0
  | s :: rest => rest.foldl (fun m x => max m x) s

/-- `eventServiceServer.getNextSequence`: reads `GetLatestSequence(scope)`
and returns it plus one.  (The `sql.ErrNoRows` branch never fires because
`COALESCE` always yields a row; the `nil`/type-assertion fallbacks collapse
to the integer value in this embedding.) -/
def getNextSequence (store : List StoredEvent) (scope : String) : Int :=
  getLatestSequence store scope + 1

/-- The SQL ordering key used by `ORDER BY sequence ASC`. -/
def seqLe (a b : StoredEvent) : Prop := a.sequence ≤ b.sequence

instance : DecidableRel seqLe := fun a b => inferInstanceAs (Decidable (a.sequence ≤ b.sequence))

instance : IsTotal StoredEvent seqLe := ⟨fun a b => Int.le_total a.sequence b.sequence⟩

instance : IsTrans StoredEvent seqLe := ⟨fun _ _ _ h h2 => Int.le_trans h h2⟩

/-- sqlc query `GetEvents`:
`SELECT * FROM events WHERE scope = ? AND (event_type IN (slice) OR slice IS NULL)
AND sequence >= ? AND sequence <= ? ORDER BY sequence ASC LIMIT ?`.
An empty `event_types` slice disables the type filter. -/
def getEventsQuery (store : List StoredEvent) (scope : String)
    (eventTypes : List String) (fromSeq toSeq : Int) (lim : Nat) : List StoredEvent :=
  ((store.filter (fun e =>
      e.scope = scope ∧ (eventTypes = [] ∨ e.event_type ∈ eventTypes) ∧
      fromSeq ≤ e.sequence ∧ e.sequence ≤ toSeq)).insertionSort seqLe).take lim

/-- `pb.Event` as sent in a `PublishRequest`.  `timestamp = none` models a nil
timestamp (server assigns the current time); `eventId = ""` makes the server
generate one. -/
structure PbEvent where
  eventId : String
  eventType : String
  scope : String
  actorId : String
  timestamp : Option Int
  payload : Option String
  metadata : List (String × String)
deriving DecidableEq, Repr

/-- `pb.PublishRequest`; `event = none` models a nil event pointer. -/
structure PublishRequest where
  event : Option PbEvent
deriving DecidableEq, Repr

/-- `pb.PublishResponse`. -/
structure PublishResponse where
  eventId : String
  sequence : Int
  success : Bool
deriving DecidableEq, Repr

/-- `pb.GetEventsRequest`; proto3 scalars default to `0` / `""` / empty list
when unset. -/
structure GetEventsRequest where
  scope : String
  eventTypes : List String
  fromSequence : Int
  toSequence : Int
  limit : Int
deriving DecidableEq, Repr

/-- `pb.GetEventsResponse`.  The Go server converts database rows back to
proto events with `dbEventToProto`; row identity is preserved here. -/
structure GetEventsResponse where
  events : List StoredEvent
  hasMore : Bool
  nextSequence : Int
deriving DecidableEq, Repr

/-- `pb.SubscribeRequest`. -/
structure SubscribeRequest where
  eventTypes : List String
  scopes : List String
  filters : List (String × String)
  fromSequence : Int
deriving DecidableEq, Repr

/-- A registered `eventSubscriber` (the entry the `Subscribe` handler puts in
`s.subscribers`).  `done` models a closed `done` channel; `sinkClosed` models
a stream whose `Send` returns an error. -/
structure eventSubscriber where
  eventTypes : List String
  scopes : List String
  filters : List (String × String)
  done : Bool
  sinkClosed : Bool
deriving DecidableEq, Repr

/-- The subscriber registry `s.subscribers`, an id-keyed map. -/
abbrev Registry := List (String × eventSubscriber)

/-- `eventMatchesSubscriber`: type check (empty list or listed), scope check
(empty list or listed), then every filter entry compared against
`event.Metadata[key]` (Go map indexing: `""` when the key is absent). -/
def eventMatchesSubscriber (e : StoredEvent) (sub : eventSubscriber) : Bool :=
  (sub.eventTypes = [] ∨ e.event_type ∈ sub.eventTypes) ∧
  (sub.scopes = [] ∨ e.scope ∈ sub.scopes) ∧
  (∀ p ∈ sub.filters, lookupOrEmpty e.metadata p.1 = p.2)

/-- `eventMatchesFilters`: the same three checks, written against the
`SubscribeRequest` fields instead of the stored subscriber. -/
def eventMatchesFilters (e : StoredEvent) (req : SubscribeRequest) : Bool :=
  (req.eventTypes = [] ∨ e.event_type ∈ req.eventTypes) ∧
  (req.scopes = [] ∨ e.scope ∈ req.scopes) ∧
  (∀ p ∈ req.filters, lookupOrEmpty e.metadata p.1 = p.2)

/-- What `broadcastEvent` does with one subscriber: non-matching subscribers
are passed over; a matching subscriber whose `done` channel is closed is
skipped; otherwise `stream.Send` is attempted, which fails (and is logged)
when the sink is closed. -/
inductive DeliveryOutcome
  | notMatched
  | skippedDone
  | sendFailed
  | delivered
deriving DecidableEq, Repr

/-- Outcome of `broadcastEvent`'s loop body for one subscriber. -/
def deliverOutcome (e : StoredEvent) (sub : eventSubscriber) : DeliveryOutcome :=
  if eventMatchesSubscriber e sub then
    if sub.done then .skippedDone
    else if sub.sinkClosed then .sendFailed
    else .delivered
  else .notMatched

/-- `broadcastEvent`: iterates over all registered subscribers under a read
lock (so the registry itself is not modified) and records each delivery
outcome.  A `Send` error is logged and the loop continues. -/
def broadcastEvent (e : StoredEvent) (regs : Registry) : List (String × DeliveryOutcome) :=
  regs.map (fun r => (r.1, deliverOutcome e r.2))

/-- `eventServiceServer.GetEvents`: rejects an empty scope, applies the
default/cap rules to `limit`, clamps a negative `from_sequence` to `0`,
substitutes the scope's latest sequence for an unset `to_sequence`, runs the
`GetEvents` query, and reports `has_more` when the page is full. -/
def GetEvents (store : List StoredEvent) (req : GetEventsRequest) :
    Except GrpcError GetEventsResponse :=
  if req.scope = "" then .error ⟨.invalidArgument, "scope is required"⟩
  else
    let lim : Int := if 0 < req.limit ∧ req.limit ≤ 100 then req.limit else 50
    let fromSeq := if req.fromSequence < 0 then 0 else req.fromSequence
    let toSeq := if req.toSequence ≤ 0 then getLatestSequence store req.scope else req.toSequence
    let events := getEventsQuery store req.scope req.eventTypes fromSeq toSeq lim.toNat
    let hasMore := events.length = lim.toNat
    let nextSequence : Int :=
      if hasMore ∧ events ≠ [] then
        (match events.getLast? with
         | some e => e.sequence + 1
         | none => 0)
      else 0
    .ok ⟨events, hasMore, nextSequence⟩

/-- The row that `Publish` hands to `CreateEvent` for a request event `ev`,
after id/timestamp assignment and sequencing. -/
def storedOfEvent (eventId : String) (ev : PbEvent) (ts seq : Int) : StoredEvent :=
  ⟨eventId, ev.eventType, ev.scope, ev.actorId, ts, ev.payload, ev.metadata, seq⟩

/-- Result of one `Publish` call: the gRPC response or error, the resulting
store, the resulting subscriber registry, and the broadcast log (empty when
no broadcast happened).  The Go `Publish` path only ever takes a read lock
on the registry (`broadcastEvent` uses `RLock`), so the returned registry is
always the input one. -/
structure PublishResult where
  resp : Except GrpcError PublishResponse
  store : List StoredEvent
  regs : Registry
  deliveries : List (String × DeliveryOutcome)
deriving Repr

/-- `eventServiceServer.Publish`.  `genId` is the id the server would
generate (`fmt.Sprintf("event_%d", time.Now().UnixNano())`) and `now` the
server clock, both passed in explicitly.  A nil event is rejected with
`InvalidArgument`; then the sequence is fetched, the row inserted
(`CreateEvent`; a duplicate `event_id` violates the primary key and surfaces
as a `codes.Internal` store error), and on success the event is broadcast. -/
def Publish (store : List StoredEvent) (regs : Registry) (genId : String) (now : Int)
    (req : PublishRequest) : PublishResult :=
  match req.event with
  | none => ⟨.error ⟨.invalidArgument, "event is required"⟩, store, regs, []⟩
  | some ev =>
    let eventId := if ev.eventId = "" then genId else ev.eventId
    let ts := match ev.timestamp with
      | some t => t
      | none => now
    let nextSequence := getNextSequence store ev.scope
    if store.any (fun s => s.event_id = eventId) then
      ⟨.error ⟨.internal, "failed to store event"⟩, store, regs, []⟩
    else
      let stored : StoredEvent := storedOfEvent eventId ev ts nextSequence
      ⟨.ok ⟨eventId, nextSequence, true⟩, store ++ [stored], regs, broadcastEvent stored regs⟩

/-- The loop of `sendHistoricalEvents` over the requested scopes: for each
scope, call the server's own `GetEvents` with the request's types, the
request's `from_sequence`, an unset `to_sequence` and a batch limit of 100,
then send every returned event passing `eventMatchesFilters`.  An error from
`GetEvents` aborts the loop.  The returned list is the sequence of events
written to the subscriber's stream. -/
def sendHistoricalLoop (store : List StoredEvent) (req : SubscribeRequest) :
    List String → Except GrpcError (List StoredEvent)
  | [] => .ok []
  | scope :: rest =>
    match GetEvents store ⟨scope, req.eventTypes, req.fromSequence, 0, 100⟩ with
    | .error e => .error e
    | .ok resp =>
      match sendHistoricalLoop store req rest with
      | .error e => .error e
      | .ok tail => .ok ((resp.events.filter (fun ev => eventMatchesFilters ev req)) ++ tail)

/-- `eventServiceServer.sendHistoricalEvents`: nothing is sent when the
request lists no scopes; otherwise the per-scope loop runs. -/
def sendHistoricalEvents (store : List StoredEvent) (req : SubscribeRequest) :
    Except GrpcError (List StoredEvent) :=
  if req.scopes = [] then .ok []
  else sendHistoricalLoop store req req.scopes

/-- The replay decision inside `Subscribe`: historical events are sent iff
`req.FromSequence != 0`. -/
def subscribeHistorical (store : List StoredEvent) (req : SubscribeRequest) :
    Except GrpcError (List StoredEvent) :=
  if req.fromSequence ≠ 0 then sendHistoricalEvents store req else .ok []

/-- The subscriber record that `Subscribe` registers for a request (a live
subscriber: done channel open, stream usable). -/
def subscriberOfRequest (req : SubscribeRequest) : eventSubscriber :=
  ⟨req.eventTypes, req.scopes, req.filters, false, false⟩

/-- State of two concurrent `Publish` calls to the same store.  `Publish`
holds no lock between its `GetLatestSequence` read (inside
`getNextSequence`) and its `CreateEvent` insert, so each is a separate
atomic step.  `r1`/`r2` hold the sequence each call computed from its read
(`none` before the read); `w1`/`w2` record that the call's insert ran. -/
structure TwoPubState where
  store : List StoredEvent
  r1 : Option Int
  w1 : Bool
  r2 : Option Int
  w2 : Bool

/-- Interleaving semantics of two concurrent `Publish` calls, for request
events `ev1`, `ev2` with already-assigned ids `id1`, `id2` and timestamps
`t1`, `t2`.  Each call first reads the scope's next sequence
(`getNextSequence` over the store it observes), then inserts its row with
that sequence; the insert fails (leaving the store unchanged) when the
`event_id` already exists.  Any interleaving of the four steps is allowed. -/
inductive TwoPubStep (id1 id2 : String) (ev1 ev2 : PbEvent) (t1 t2 : Int) :
    TwoPubState → TwoPubState → Prop
  | read1 (s : TwoPubState) :
      s.r1 = none →
      TwoPubStep id1 id2 ev1 ev2 t1 t2 s
        ⟨s.store, some (getNextSequence s.store ev1.scope), s.w1, s.r2, s.w2⟩
  | read2 (s : TwoPubState) :
      s.r2 = none →
      TwoPubStep id1 id2 ev1 ev2 t1 t2 s
        ⟨s.store, s.r1, s.w1, some (getNextSequence s.store ev2.scope), s.w2⟩
  | write1 (s : TwoPubState) (n : Int) :
      s.r1 = some n → s.w1 = false →
      s.store.any (fun r => r.event_id = id1) = false →
      TwoPubStep id1 id2 ev1 ev2 t1 t2 s
        ⟨s.store ++ [storedOfEvent id1 ev1 t1 n], s.r1, true, s.r2, s.w2⟩
  | write2 (s : TwoPubState) (n : Int) :
      s.r2 = some n → s.w2 = false →
      s.store.any (fun r => r.event_id = id2) = false →
      TwoPubStep id1 id2 ev1 ev2 t1 t2 s
        ⟨s.store ++ [storedOfEvent id2 ev2 t2 n], s.r1, s.w1, s.r2, true⟩

/-- Modelled from the spec's words in §4.3, for comparison with the code's
`eventMatchesSubscriber`: the metadata check requires every filter key to be
*present* in the event's metadata with an equal value. -/
def specEventMatchesSubscriber (e : StoredEvent) (sub : eventSubscriber) : Bool :=
  (sub.eventTypes = [] ∨ e.event_type ∈ sub.eventTypes) ∧
  (sub.scopes = [] ∨ e.scope ∈ sub.scopes) ∧
  (∀ p ∈ sub.filters, ∃ q ∈ e.metadata, q.1 = p.1 ∧ q.2 = p.2)

/-- The effective page size `GetEvents` uses for a requested `limit`:
the request's value when it lies in `(0, 100]`, otherwise the default 50. -/
def effLimit (l : Int) : Nat :=
  (if 0 < l ∧ l ≤ 100 then l else 50).toNat

/-- The single batch that the replay loop of `sendHistoricalEvents` sends
for one scope: the `GetEvents` page for that scope (request `from_sequence`
clamped at 0, `to_sequence` unset so the scope's latest sequence is
substituted, batch limit 100), filtered by `eventMatchesFilters`. -/
def histBatch (store : List StoredEvent) (req : SubscribeRequest) (sc : String) :
    List StoredEvent :=
  (getEventsQuery store sc req.eventTypes
      (if req.fromSequence < 0 then 0 else req.fromSequence)
      (getLatestSequence store sc) 100).filter (fun e => eventMatchesFilters e req)

/-- A scope with 101 stored events at sequences 1..101 (used to exercise
the replay batch limit). -/
def bigStore : List StoredEvent :=
  (List.range 101).map (fun i => ⟨"e" ++ toString i, "t", "s", "a", 0, none, [], (i : Int) + 1⟩)

/-- A subscription to scope `"s"` replaying from sequence 1. -/
def bigReq : SubscribeRequest := ⟨[], ["s"], [], 1⟩

/-- First publisher's request event in the two-publisher interleaving
scenario (id and timestamp already assigned). -/
def pubEv1 : PbEvent := ⟨"e1", "t", "s", "a", some 0, none, []⟩

/-- Second publisher's request event in the same scenario. -/
def pubEv2 : PbEvent := ⟨"e2", "t", "s", "a", some 0, none, []⟩

/-- Subscription used in the catch-up handoff scenario: scope `"s"`,
no type or metadata filters, replay from sequence 1. -/
def c9Req : SubscribeRequest := ⟨[], ["s"], [], 1⟩

/-- Event published concurrently with the Subscribe in the handoff
scenario. -/
def c9Ev : PbEvent := ⟨"e1", "t", "s", "a", some 5, none, []⟩

/-! ### Helper lemmas -/

theorem le_foldl_max (l : List Int) (a : Int) : a ≤ l.foldl (fun m x => max m x) a := by
  induction l generalizing a with
  | nil => exact le_refl a
  | cons x xs ih => exact le_trans (le_max_left a x) (ih (max a x))

theorem foldl_max_of_mem (l : List Int) : ∀ (a x : Int), x ∈ l →
    x ≤ l.foldl (fun m x => max m x) a := by
  induction l with
  | nil => intro a x hx; cases hx
  | cons y ys ih =>
    intro a x hx
    simp only [List.foldl_cons]
    rcases List.mem_cons.mp hx with h | h
    · subst h; exact le_trans (le_max_right a x) (le_foldl_max ys (max a x))
    · exact ih (max a y) x h

theorem foldl_max_cases (l : List Int) (a : Int) :
    l.foldl (fun m x => max m x) a = a ∨ l.foldl (fun m x => max m x) a ∈ l := by
  induction l generalizing a with
  | nil => exact Or.inl rfl
  | cons y ys ih =>
    rcases ih (max a y) with h | h
    · rcases max_choice a y with hm | hm
      · exact Or.inl (h.trans hm)
      · exact Or.inr (List.mem_cons.mpr (Or.inl (h.trans hm)))
    · exact Or.inr (List.mem_cons.mpr (Or.inr h))

theorem getLatestSequence_of_no_scope_event (store : List StoredEvent) (scope : String)
    (h : ∀ e ∈ store, e.scope ≠ scope) : getLatestSequence store scope = 0 := by
  unfold getLatestSequence
  have hf : store.filter (fun e => e.scope = scope) = [] := by
    rw [List.filter_eq_nil_iff]
    intro e he
    simpa using h e he
  rw [hf]
  rfl

theorem le_getLatestSequence (store : List StoredEvent) (scope : String) (e : StoredEvent)
    (he : e ∈ store) (hs : e.scope = scope) : e.sequence ≤ getLatestSequence store scope := by
  unfold getLatestSequence
  have hmem : e.sequence ∈ (store.filter (fun e => e.scope = scope)).map
      (fun e => e.sequence) :=
    List.mem_map_of_mem _ (List.mem_filter.mpr ⟨he, by simpa using hs⟩)
  cases hm : (store.filter (fun e => e.scope = scope)).map (fun e => e.sequence) with
  | nil => rw [hm] at hmem; cases hmem
  | cons s rest =>
    rw [hm] at hmem
    rcases List.mem_cons.mp hmem with h | h
    · exact h ▸ le_foldl_max rest s
    · exact foldl_max_of_mem rest s e.sequence h


theorem getLatestSequence_is_attained (store : List StoredEvent) (scope : String)
    (h : ∃ e ∈ store, e.scope = scope) :
    ∃ e ∈ store, e.scope = scope ∧ e.sequence = getLatestSequence store scope := by
  obtain ⟨e0, he0, hs0⟩ := h
  have hmem0 : e0 ∈ store.filter (fun e => e.scope = scope) :=
    List.mem_filter.mpr ⟨he0, by simpa using hs0⟩
  unfold getLatestSequence
  cases hm : (store.filter (fun e => e.scope = scope)).map (fun e => e.sequence) with
  | nil =>
    exact absurd (List.mem_map_of_mem (fun e => e.sequence) hmem0) (by rw [hm]; simp)
  | cons s rest =>
    have hval : rest.foldl (fun m x => max m x) s ∈
        (store.filter (fun e => e.scope = scope)).map (fun e => e.sequence) := by
      rw [hm]
      rcases foldl_max_cases rest s with hc | hc
      · exact List.mem_cons.mpr (Or.inl hc)
      · exact List.mem_cons.mpr (Or.inr hc)
    obtain ⟨e, he, hseq⟩ := List.mem_map.mp hval
    obtain ⟨hes, hesc⟩ := List.mem_filter.mp he
    exact ⟨e, hes, by simpa using hesc, hseq⟩

/-! ### C2 — sequencer returns latest stored sequence plus one -/

/-- C2: in a sequential execution `getNextSequence` returns the current
maximum stored sequence of the scope plus one; a scope with no stored events
has latest sequence 0 (so the next sequence is 1), and the first event
published to such a scope is assigned sequence 1. -/
theorem getNextSequence_spec (store : List StoredEvent) (scope : String) :
    getNextSequence store scope = getLatestSequence store scope + 1
    ∧ ((∀ e ∈ store, e.scope ≠ scope) → getLatestSequence store scope = 0)
    ∧ (∀ e ∈ store, e.scope = scope → e.sequence ≤ getLatestSequence store scope)
    ∧ ((∃ e ∈ store, e.scope = scope) →
        ∃ e ∈ store, e.scope = scope ∧ e.sequence = getLatestSequence store scope)
    ∧ (∀ regs genId now (ev : PbEvent), ev.scope = scope →
        (∀ e ∈ store, e.scope ≠ scope) →
        store.any (fun r => r.event_id = (if ev.eventId = "" then genId else ev.eventId)) = false →
        (Publish store regs genId now ⟨some ev⟩).resp =
          .ok ⟨(if ev.eventId = "" then genId else ev.eventId), 1, true⟩) := by
  refine ⟨rfl, getLatestSequence_of_no_scope_event store scope,
    fun e he hs => le_getLatestSequence store scope e he hs,
    getLatestSequence_is_attained store scope, ?_⟩
  intro regs genId now ev hsc hnone hdup
  have hseq : getNextSequence store ev.scope = 1 := by
    unfold getNextSequence
    rw [hsc, getLatestSequence_of_no_scope_event store scope hnone]
    decide
  simp only [Publish, hdup, Bool.false_eq_true, if_false, hseq]

/-- Witness for C2 at concrete inputs. -/
theorem getNextSequence_spec_witness :
    getNextSequence [] "s" = getLatestSequence [] "s" + 1
    ∧ getLatestSequence [] "s" = 0
    ∧ (Publish [] [] "g" 0 ⟨some ⟨"", "t", "s", "a", none, none, []⟩⟩).resp =
        .ok ⟨"g", 1, true⟩ := by
  have h := getNextSequence_spec [] "s"
  exact ⟨h.1, h.2.1 (by simp), h.2.2.2.2 [] "g" 0 ⟨"", "t", "s", "a", none, none, []⟩ rfl
    (by simp) (by decide)⟩

/-! ### C10 — GetEvents rejects an empty scope -/

/-- C10: a `GetEvents` call whose scope is the empty string fails with
`InvalidArgument` and the result does not depend on the store (no store
read influences it); no events are returned. -/
theorem getEvents_empty_scope (store store2 : List StoredEvent) (req : GetEventsRequest)
    (h : req.scope = "") :
    GetEvents store req = .error ⟨.invalidArgument, "scope is required"⟩
    ∧ GetEvents store req = GetEvents store2 req := by
  constructor
  · simp [GetEvents, h]
  · simp [GetEvents, h]

/-- Witness for C10 at concrete inputs. -/
theorem getEvents_empty_scope_witness :
    GetEvents [⟨"e1", "t", "s", "a", 0, none, [], 1⟩] ⟨"", [], 0, 0, 0⟩ =
      .error ⟨.invalidArgument, "scope is required"⟩
    ∧ GetEvents [⟨"e1", "t", "s", "a", 0, none, [], 1⟩] ⟨"", [], 0, 0, 0⟩ =
        GetEvents [] ⟨"", [], 0, 0, 0⟩ :=
  getEvents_empty_scope [⟨"e1", "t", "s", "a", 0, none, [], 1⟩] [] ⟨"", [], 0, 0, 0⟩ rfl

/-! ### C4 — Publish validation -/

/-- C4 counterexample: an event with empty `scope` and empty `event_type` is
not rejected with `InvalidArgument`; the publish succeeds (and the event is
stored), contradicting the claim that such events are rejected. -/
theorem publish_accepts_empty_scope_and_type :
    (Publish [] [] "g" 0 ⟨some ⟨"id1", "", "", "a", none, none, []⟩⟩).resp =
      .ok ⟨"id1", 1, true⟩
    ∧ (Publish [] [] "g" 0 ⟨some ⟨"id1", "", "", "a", none, none, []⟩⟩).store =
        [⟨"id1", "", "", "a", 0, none, [], 1⟩] := by
  constructor
  · rfl
  · rfl

/-- C4 amended: `Publish` fails with `InvalidArgument` only when the request
event is missing (nil); that rejection happens before any sequencing,
persistence or broadcast (store, registry and broadcast log untouched) and
its message names the missing field.  An event that is present is never
rejected with `InvalidArgument` — in particular an empty `scope` or
`event_type` is not validated — and any error surfaced for a present event
is an `Internal` store error. -/
theorem publish_validation (store : List StoredEvent) (regs : Registry) (genId : String)
    (now : Int) :
    Publish store regs genId now ⟨none⟩ =
      ⟨.error ⟨.invalidArgument, "event is required"⟩, store, regs, []⟩
    ∧ (∀ ev err, (Publish store regs genId now ⟨some ev⟩).resp = .error err →
        err.code = .internal) := by
  refine ⟨rfl, ?_⟩
  intro ev err h
  cases hany : store.any
      (fun s => s.event_id = (if ev.eventId = "" then genId else ev.eventId)) with
  | false =>
    simp only [Publish, hany, Bool.false_eq_true, if_false] at h
    cases h
  | true =>
    simp only [Publish, hany, if_true] at h
    cases h
    rfl

/-- Witness for C4 at concrete inputs. -/
theorem publish_validation_witness :
    Publish [⟨"e1", "t", "s", "a", 0, none, [], 1⟩] [] "g" 7 ⟨none⟩ =
      ⟨.error ⟨.invalidArgument, "event is required"⟩,
        [⟨"e1", "t", "s", "a", 0, none, [], 1⟩], [], []⟩
    ∧ GrpcError.code ⟨.internal, "failed to store event"⟩ = .internal := by
  have h := publish_validation [⟨"e1", "t", "s", "a", 0, none, [], 1⟩] [] "g" 7
  exact ⟨h.1, h.2 ⟨"e1", "t2", "s", "a", none, none, []⟩ ⟨.internal, "failed to store event"⟩
    (by rfl)⟩

/-! ### C3 — duplicate event_id -/

/-- C3 counterexample: publishing an event whose `event_id` already exists
does not return a Conflict (`AlreadyExists`) error — the primary-key
violation surfaces as `Internal` — although the store is unchanged and no
broadcast happens. -/
theorem publish_duplicate_not_conflict :
    (Publish [⟨"e1", "t", "s", "a", 0, none, [], 1⟩] [] "g" 0
        ⟨some ⟨"e1", "t2", "s", "a", none, none, []⟩⟩).resp =
      .error ⟨.internal, "failed to store event"⟩
    ∧ GrpcCode.internal ≠ GrpcCode.alreadyExists
    ∧ (Publish [⟨"e1", "t", "s", "a", 0, none, [], 1⟩] [] "g" 0
        ⟨some ⟨"e1", "t2", "s", "a", none, none, []⟩⟩).store =
        [⟨"e1", "t", "s", "a", 0, none, [], 1⟩]
    ∧ (Publish [⟨"e1", "t", "s", "a", 0, none, [], 1⟩] [] "g" 0
        ⟨some ⟨"e1", "t2", "s", "a", none, none, []⟩⟩).deliveries = [] := by
  refine ⟨rfl, by decide, rfl, rfl⟩

/-- C3 amended: publishing an event whose (possibly server-assigned)
`event_id` already exists in the store fails with an `Internal` error (the
store's uniqueness violation is wrapped as a generic store error, not a
Conflict), leaves the store and registry unchanged, and triggers no
broadcast. -/
theorem publish_duplicate_event_id (store : List StoredEvent) (regs : Registry)
    (genId : String) (now : Int) (ev : PbEvent)
    (hdup : store.any
      (fun r => r.event_id = (if ev.eventId = "" then genId else ev.eventId)) = true) :
    Publish store regs genId now ⟨some ev⟩ =
      ⟨.error ⟨.internal, "failed to store event"⟩, store, regs, []⟩ := by
  simp only [Publish, hdup, if_true]

/-- Witness for C3's amended theorem at concrete inputs. -/
theorem publish_duplicate_event_id_witness :
    Publish [⟨"e9", "t", "s", "a", 0, none, [], 4⟩] [] "e9" 3
        ⟨some ⟨"", "t2", "s", "b", none, none, []⟩⟩ =
      ⟨.error ⟨.internal, "failed to store event"⟩,
        [⟨"e9", "t", "s", "a", 0, none, [], 4⟩], [], []⟩ := by
  exact publish_duplicate_event_id [⟨"e9", "t", "s", "a", 0, none, [], 4⟩] [] "e9" 3
    ⟨"", "t2", "s", "b", none, none, []⟩ (by decide)

/-! ### C5 — broadcast filter matching -/

/-- C5 counterexample: a live subscription whose metadata filter maps `"k"`
to the empty string receives an event whose metadata does not contain the
key `"k"` at all — Go's `event.Metadata[key]` reads an absent key as `""` —
although the spec's metadata check (key must be present) fails.  So
delivery is not equivalent to the three checks as the claim states them. -/
theorem broadcast_delivers_with_absent_filter_key :
    broadcastEvent ⟨"e1", "t", "s", "a", 0, none, [], 1⟩
        [("x", ⟨[], [], [("k", "")], false, false⟩)] =
      [("x", DeliveryOutcome.delivered)]
    ∧ specEventMatchesSubscriber ⟨"e1", "t", "s", "a", 0, none, [], 1⟩
        ⟨[], [], [("k", "")], false, false⟩ = false := by
  exact ⟨rfl, by decide⟩

theorem nodup_keys_eq {l : Registry} (h : (l.map Prod.fst).Nodup)
    {a : String} {b c : eventSubscriber} (h1 : (a, b) ∈ l) (h2 : (a, c) ∈ l) : b = c := by
  induction l with
  | nil => cases h1
  | cons x xs ih =>
    simp only [List.map_cons, List.nodup_cons] at h
    rcases List.mem_cons.mp h1 with hb | hb <;> rcases List.mem_cons.mp h2 with hc | hc
    · rw [← hb] at hc; exact congrArg Prod.snd hc.symm
    · exact absurd (List.mem_map_of_mem Prod.fst hc)
        (by rw [← hb] at h; exact h.1)
    · exact absurd (List.mem_map_of_mem Prod.fst hb)
        (by rw [← hc] at h; exact h.1)
    · exact ih h.2 hb hc

/-- C5 amended: for every event and every live subscription (done channel
open, sink usable), the Broadcaster delivers the event to that subscription
iff the three filter checks pass, where the metadata check compares each
filter entry against the value read from the event's metadata with an
*absent key read as the empty string* (Go map indexing) — so a filter entry
whose value is `""` also matches events lacking that key entirely. -/
theorem broadcast_delivers_iff (e : StoredEvent) (regs : Registry) (id : String)
    (sub : eventSubscriber) (hnd : (regs.map Prod.fst).Nodup) (hmem : (id, sub) ∈ regs)
    (hdone : sub.done = false) (hsink : sub.sinkClosed = false) :
    ((id, DeliveryOutcome.delivered) ∈ broadcastEvent e regs ↔
      ((sub.eventTypes = [] ∨ e.event_type ∈ sub.eventTypes) ∧
       (sub.scopes = [] ∨ e.scope ∈ sub.scopes) ∧
       (∀ p ∈ sub.filters, lookupOrEmpty e.metadata p.1 = p.2))) := by
  have houtcome : ∀ s : eventSubscriber, s.done = false → s.sinkClosed = false →
      (deliverOutcome e s = .delivered ↔ eventMatchesSubscriber e s = true) := by
    intro s hd hs
    unfold deliverOutcome
    rw [hd, hs]
    cases eventMatchesSubscriber e s <;> simp
  constructor
  · intro h
    obtain ⟨r, hr, heq⟩ := List.mem_map.mp h
    have hid : r.1 = id := congrArg Prod.fst heq
    have hsub : r.2 = sub := by
      have : (id, r.2) ∈ regs := by
        have : (r.1, r.2) ∈ regs := hr
        rwa [hid] at this
      exact nodup_keys_eq hnd this hmem
    have hdel : deliverOutcome e sub = .delivered := by
      have := congrArg Prod.snd heq
      simpa [hsub] using this
    have := (houtcome sub hdone hsink).mp hdel
    simpa [eventMatchesSubscriber] using this
  · intro h
    have hmatch : eventMatchesSubscriber e sub = true := by
      simpa [eventMatchesSubscriber] using h
    have hdel : deliverOutcome e sub = .delivered := (houtcome sub hdone hsink).mpr hmatch
    exact List.mem_map.mpr ⟨(id, sub), hmem, by simp [hdel]⟩

/-- Witness for C5's amended theorem at concrete inputs. -/
theorem broadcast_delivers_iff_witness :
    ("y", DeliveryOutcome.delivered) ∈
      broadcastEvent ⟨"e1", "message.sent", "channel:1", "a", 0, none, [("k", "v")], 1⟩
        [("y", ⟨["message.sent"], ["channel:1"], [("k", "v")], false, false⟩)] := by
  exact (broadcast_delivers_iff ⟨"e1", "message.sent", "channel:1", "a", 0, none, [("k", "v")], 1⟩
    [("y", ⟨["message.sent"], ["channel:1"], [("k", "v")], false, false⟩)] "y"
    ⟨["message.sent"], ["channel:1"], [("k", "v")], false, false⟩
    (by decide) (by decide) rfl rfl).mpr (by decide)

/-! ### C6 — delivery failure isolation -/

/-- C6 counterexample: subscriber `x` has a closed sink and subscriber `y`
is live; both match the published event.  The publish succeeds, `x`'s
failure is logged as a failed send and `y` is still delivered to — but `x`
is *not* marked for removal: the registry after the publish is exactly the
registry before (the broadcast loop only logs the error and moves on;
removal only happens when `x`'s own `Subscribe` handler observes its
disconnect), contradicting the claim's "marked for removal". -/
theorem broadcast_failure_not_marked_for_removal :
    (Publish [] [("x", ⟨[], ["s"], [], false, true⟩), ("y", ⟨[], ["s"], [], false, false⟩)]
        "g" 0 ⟨some ⟨"e1", "t", "s", "a", none, none, []⟩⟩).resp = .ok ⟨"e1", 1, true⟩
    ∧ (Publish [] [("x", ⟨[], ["s"], [], false, true⟩), ("y", ⟨[], ["s"], [], false, false⟩)]
        "g" 0 ⟨some ⟨"e1", "t", "s", "a", none, none, []⟩⟩).deliveries =
        [("x", DeliveryOutcome.sendFailed), ("y", DeliveryOutcome.delivered)]
    ∧ (Publish [] [("x", ⟨[], ["s"], [], false, true⟩), ("y", ⟨[], ["s"], [], false, false⟩)]
        "g" 0 ⟨some ⟨"e1", "t", "s", "a", none, none, []⟩⟩).regs =
        [("x", ⟨[], ["s"], [], false, true⟩), ("y", ⟨[], ["s"], [], false, false⟩)] := by
  exact ⟨rfl, rfl, rfl⟩

/-- C6 amended: when delivery of a matched event to one subscriber fails
(sink closed), the failure is logged as a failed send for that subscriber
and the loop moves on: every other matching live subscriber is still
delivered to, and the `Publish` call still succeeds.  The failed subscriber
is *not* marked for removal — the registry is returned unchanged; it is
removed only when its own `Subscribe` handler observes the disconnect. -/
theorem publish_delivery_failure_isolated (store : List StoredEvent) (regs : Registry)
    (genId : String) (now : Int) (ev : PbEvent) (eid : String) (ts : Int)
    (heid : eid = if ev.eventId = "" then genId else ev.eventId)
    (hts : ts = (match ev.timestamp with | some t => t | none => now))
    (hok : store.any (fun r => r.event_id = eid) = false) :
    (Publish store regs genId now ⟨some ev⟩).resp =
      .ok ⟨eid, getNextSequence store ev.scope, true⟩
    ∧ (Publish store regs genId now ⟨some ev⟩).regs = regs
    ∧ (∀ id sub, (id, sub) ∈ regs → sub.done = false → sub.sinkClosed = true →
        eventMatchesSubscriber (storedOfEvent eid ev ts (getNextSequence store ev.scope))
          sub = true →
        (id, DeliveryOutcome.sendFailed) ∈ (Publish store regs genId now ⟨some ev⟩).deliveries)
    ∧ (∀ id sub, (id, sub) ∈ regs → sub.done = false → sub.sinkClosed = false →
        eventMatchesSubscriber (storedOfEvent eid ev ts (getNextSequence store ev.scope))
          sub = true →
        (id, DeliveryOutcome.delivered) ∈ (Publish store regs genId now ⟨some ev⟩).deliveries) := by
  subst heid
  subst hts
  refine ⟨?_, ?_, ?_, ?_⟩
  · simp only [Publish, hok, Bool.false_eq_true, if_false]
  · simp only [Publish, hok, Bool.false_eq_true, if_false]
  · intro id sub hmem hdone hsink hmatch
    simp only [Publish, hok, Bool.false_eq_true, if_false]
    exact List.mem_map.mpr ⟨(id, sub), hmem, by simp [deliverOutcome, hmatch, hdone, hsink]⟩
  · intro id sub hmem hdone hsink hmatch
    simp only [Publish, hok, Bool.false_eq_true, if_false]
    exact List.mem_map.mpr ⟨(id, sub), hmem, by simp [deliverOutcome, hmatch, hdone, hsink]⟩

/-- Witness for C6's amended theorem at concrete inputs. -/
theorem publish_delivery_failure_isolated_witness :
    ("x", DeliveryOutcome.sendFailed) ∈
      (Publish [] [("x", ⟨[], ["s"], [], false, true⟩), ("y", ⟨[], ["s"], [], false, false⟩)]
        "g" 0 ⟨some ⟨"e1", "t", "s", "a", none, none, []⟩⟩).deliveries
    ∧ ("y", DeliveryOutcome.delivered) ∈
      (Publish [] [("x", ⟨[], ["s"], [], false, true⟩), ("y", ⟨[], ["s"], [], false, false⟩)]
        "g" 0 ⟨some ⟨"e1", "t", "s", "a", none, none, []⟩⟩).deliveries := by
  have h := publish_delivery_failure_isolated []
    [("x", ⟨[], ["s"], [], false, true⟩), ("y", ⟨[], ["s"], [], false, false⟩)]
    "g" 0 ⟨"e1", "t", "s", "a", none, none, []⟩ "e1" 0 rfl rfl rfl
  exact ⟨h.2.2.1 "x" ⟨[], ["s"], [], false, true⟩ (by simp) rfl rfl (by decide),
    h.2.2.2 "y" ⟨[], ["s"], [], false, false⟩ (by simp) rfl rfl (by decide)⟩

/-! ### C7 — GetEvents query semantics -/

/-- C7: for a `GetEvents` call with a non-empty scope, a non-negative
`from_sequence` and a positive `to_sequence`, the returned events are the
stored events of the scope (restricted to the listed `event_types` when
non-empty) whose sequence lies in the inclusive range
`[from_sequence, to_sequence]`, ascending by sequence, at most `limit` of
them — where the effective limit defaults to 50 when unspecified and never
exceeds the hard cap 100 — and `has_more` is true exactly when the returned
count equals the effective limit.  When the limit does not truncate, every
matching stored event is returned. -/
theorem getEvents_spec (store : List StoredEvent) (req : GetEventsRequest)
    (hscope : req.scope ≠ "") (hfrom : 0 ≤ req.fromSequence) (hto : 0 < req.toSequence) :
    ∃ resp, GetEvents store req = .ok resp
    ∧ resp.events = getEventsQuery store req.scope req.eventTypes req.fromSequence
        req.toSequence (effLimit req.limit)
    ∧ List.Sorted seqLe resp.events
    ∧ (∀ e ∈ resp.events, e ∈ store ∧ e.scope = req.scope ∧
        (req.eventTypes = [] ∨ e.event_type ∈ req.eventTypes) ∧
        req.fromSequence ≤ e.sequence ∧ e.sequence ≤ req.toSequence)
    ∧ (∀ e ∈ store, e.scope = req.scope →
        (req.eventTypes = [] ∨ e.event_type ∈ req.eventTypes) →
        req.fromSequence ≤ e.sequence → e.sequence ≤ req.toSequence →
        (store.filter (fun x => x.scope = req.scope ∧
          (req.eventTypes = [] ∨ x.event_type ∈ req.eventTypes) ∧
          req.fromSequence ≤ x.sequence ∧ x.sequence ≤ req.toSequence)).length ≤
            effLimit req.limit →
        e ∈ resp.events)
    ∧ resp.events.length ≤ effLimit req.limit
    ∧ effLimit req.limit ≤ 100
    ∧ (req.limit = 0 → effLimit req.limit = 50)
    ∧ (resp.hasMore = true ↔ resp.events.length = effLimit req.limit) := by
  have hfrom' : ¬ req.fromSequence < 0 := not_lt.mpr hfrom
  have hto' : ¬ req.toSequence ≤ 0 := not_le.mpr hto
  simp only [GetEvents, if_neg hscope, if_neg hfrom', if_neg hto']
  have heff : ((if 0 < req.limit ∧ req.limit ≤ 100 then req.limit else (50 : Int))).toNat =
      effLimit req.limit := rfl
  rw [heff]
  refine ⟨_, rfl, rfl, ?_, ?_, ?_, ?_, ?_, ?_, ?_⟩
  · exact List.Pairwise.sublist (List.take_sublist _ _) (List.sorted_insertionSort _ _)
  · intro e he
    have h1 : e ∈ List.insertionSort seqLe (store.filter _) := List.take_subset _ _ he
    rw [List.mem_insertionSort] at h1
    have h2 := List.mem_filter.mp h1
    refine ⟨h2.1, ?_⟩
    have h3 := h2.2
    simp only [decide_eq_true_eq] at h3
    exact h3
  · intro e he hsc hty hf ht hlen
    unfold getEventsQuery
    have hmemf : e ∈ store.filter (fun x => x.scope = req.scope ∧
        (req.eventTypes = [] ∨ x.event_type ∈ req.eventTypes) ∧
        req.fromSequence ≤ x.sequence ∧ x.sequence ≤ req.toSequence) :=
      List.mem_filter.mpr ⟨he, by simp only [decide_eq_true_eq]; exact ⟨hsc, hty, hf, ht⟩⟩
    have hlen2 : (List.insertionSort seqLe (store.filter (fun x => x.scope = req.scope ∧
        (req.eventTypes = [] ∨ x.event_type ∈ req.eventTypes) ∧
        req.fromSequence ≤ x.sequence ∧ x.sequence ≤ req.toSequence))).length ≤
        effLimit req.limit := by
      rw [List.length_insertionSort]; exact hlen
    rw [List.take_of_length_le hlen2, List.mem_insertionSort]
    exact hmemf
  · exact List.length_take_le _ _
  · unfold effLimit; split <;> omega
  · intro h; rw [h]; rfl
  · exact decide_eq_true_iff

/-- Witness for C7 at concrete inputs. -/
theorem getEvents_spec_witness :
    ∃ resp, GetEvents [⟨"e1", "t", "s", "a", 0, none, [], 1⟩,
        ⟨"e2", "t", "s", "a", 0, none, [], 2⟩] ⟨"s", [], 1, 2, 0⟩ = .ok resp
      ∧ resp.events.length ≤ effLimit 0 := by
  obtain ⟨resp, h1, _, _, _, _, h6, _⟩ :=
    getEvents_spec [⟨"e1", "t", "s", "a", 0, none, [], 1⟩,
      ⟨"e2", "t", "s", "a", 0, none, [], 2⟩] ⟨"s", [], 1, 2, 0⟩
      (by decide) (by decide) (by decide)
  exact ⟨resp, h1, h6⟩

/-! ### C8 — historical replay on Subscribe -/

theorem getEvents_replay_call (store : List StoredEvent) (req : SubscribeRequest)
    (sc : String) (hsc : sc ≠ "") :
    ∃ resp, GetEvents store ⟨sc, req.eventTypes, req.fromSequence, 0, 100⟩ = .ok resp ∧
      resp.events = getEventsQuery store sc req.eventTypes
        (if req.fromSequence < 0 then 0 else req.fromSequence) (getLatestSequence store sc) 100 := by
  simp only [GetEvents, if_neg hsc]
  exact ⟨_, rfl, rfl⟩

theorem sendHistoricalLoop_eq (store : List StoredEvent) (req : SubscribeRequest) :
    ∀ scopes : List String, (∀ sc ∈ scopes, sc ≠ "") →
      sendHistoricalLoop store req scopes = .ok ((scopes.map (histBatch store req)).flatten) := by
  intro scopes
  induction scopes with
  | nil => intro _; rfl
  | cons sc rest ih =>
    intro h
    have hsc : sc ≠ "" := h sc (List.mem_cons_self sc rest)
    have hrest := ih (fun x hx => h x (List.mem_cons_of_mem sc hx))
    obtain ⟨resp, hresp, hevents⟩ := getEvents_replay_call store req sc hsc
    simp only [sendHistoricalLoop, hresp, hrest]
    simp only [List.map_cons, List.flatten_cons, histBatch, hevents]

set_option maxRecDepth 16384

/-- C8 counterexample: scope `"s"` holds 101 events at sequences 1..101 and
a subscription replays it from sequence 1.  The replay sends only the first
100 events — a single `GetEvents` batch with limit 100 and no pagination —
so the stored event at sequence 101, although it matches the filter and
lies at or above `from_sequence`, is never delivered, contradicting the
claim that "the stored events from from_sequence onward are fetched and
delivered". -/
theorem sendHistorical_drops_event_101 :
    sendHistoricalEvents bigStore bigReq = .ok (bigStore.take 100)
    ∧ (bigStore.take 100).length = 100
    ∧ (⟨"e100", "t", "s", "a", 0, none, [], 101⟩ : StoredEvent) ∈ bigStore
    ∧ eventMatchesFilters ⟨"e100", "t", "s", "a", 0, none, [], 101⟩ bigReq = true
    ∧ (1 : Int) ≤ 101
    ∧ (⟨"e100", "t", "s", "a", 0, none, [], 101⟩ : StoredEvent) ∉ bigStore.take 100 := by
  refine ⟨by rfl, by decide, by decide, by decide, by decide, by decide⟩

/-- C8 amended: Subscribe with `from_sequence == 0` performs no historical
replay; with a non-zero `from_sequence` and an empty scopes list the replay
is skipped; with a non-zero `from_sequence` and non-empty scopes, for each
listed scope a *single batch of at most 100* stored events from
`from_sequence` onward (clamped at 0) is fetched and delivered in ascending
sequence order, applying the same filter as the Broadcaster; events beyond
the first 100 of a scope's range are not replayed. -/
theorem subscribeHistorical_spec (store : List StoredEvent) (req : SubscribeRequest) :
    (req.fromSequence = 0 → subscribeHistorical store req = .ok [])
    ∧ (req.scopes = [] → subscribeHistorical store req = .ok [])
    ∧ (req.fromSequence ≠ 0 → req.scopes ≠ [] → (∀ sc ∈ req.scopes, sc ≠ "") →
        subscribeHistorical store req = .ok ((req.scopes.map (histBatch store req)).flatten))
    ∧ (∀ sc, (histBatch store req sc).length ≤ 100)
    ∧ (∀ sc, List.Sorted seqLe (histBatch store req sc))
    ∧ (∀ sc e, e ∈ histBatch store req sc → e ∈ store ∧ e.scope = sc ∧
        (if req.fromSequence < 0 then 0 else req.fromSequence) ≤ e.sequence ∧
        eventMatchesFilters e req = true)
    ∧ (∀ e, eventMatchesFilters e req = eventMatchesSubscriber e (subscriberOfRequest req)) := by
  refine ⟨?_, ?_, ?_, ?_, ?_, ?_, ?_⟩
  · intro h
    simp [subscribeHistorical, h]
  · intro h
    unfold subscribeHistorical sendHistoricalEvents
    rw [h]
    simp
  · intro hfrom hscopes hall
    unfold subscribeHistorical sendHistoricalEvents
    rw [if_pos hfrom, if_neg hscopes]
    exact sendHistoricalLoop_eq store req req.scopes hall
  · intro sc
    calc (histBatch store req sc).length
        ≤ (getEventsQuery store sc req.eventTypes
            (if req.fromSequence < 0 then 0 else req.fromSequence)
            (getLatestSequence store sc) 100).length := List.length_filter_le _ _
      _ ≤ 100 := List.length_take_le _ _
  · intro sc
    unfold histBatch getEventsQuery
    exact List.Pairwise.sublist
      ((List.filter_sublist _).trans (List.take_sublist _ _))
      (List.sorted_insertionSort _ _)
  · intro sc e he
    unfold histBatch at he
    have h1 := List.mem_filter.mp he
    have h2 : e ∈ getEventsQuery store sc req.eventTypes
        (if req.fromSequence < 0 then 0 else req.fromSequence)
        (getLatestSequence store sc) 100 := h1.1
    unfold getEventsQuery at h2
    have h3 := List.take_subset _ _ h2
    rw [List.mem_insertionSort] at h3
    have h4 := List.mem_filter.mp h3
    have h5 := h4.2
    simp only [decide_eq_true_eq] at h5
    exact ⟨h4.1, h5.1, h5.2.2.1, h1.2⟩
  · intro e
    rfl

/-- Witness for C8's amended theorem at concrete inputs. -/
theorem subscribeHistorical_spec_witness :
    subscribeHistorical [⟨"e1", "t", "s", "a", 0, none, [], 1⟩] ⟨[], ["s"], [], 1⟩ =
      .ok ((["s"].map (histBatch [⟨"e1", "t", "s", "a", 0, none, [], 1⟩]
        ⟨[], ["s"], [], 1⟩)).flatten)
    ∧ subscribeHistorical [⟨"e1", "t", "s", "a", 0, none, [], 1⟩] ⟨[], ["s"], [], 0⟩ =
        .ok [] := by
  have h1 := subscribeHistorical_spec [⟨"e1", "t", "s", "a", 0, none, [], 1⟩] ⟨[], ["s"], [], 1⟩
  have h2 := subscribeHistorical_spec [⟨"e1", "t", "s", "a", 0, none, [], 1⟩] ⟨[], ["s"], [], 0⟩
  exact ⟨h1.2.2.1 (by decide) (by decide) (by decide), h2.1 rfl⟩

/-! ### C1 — concurrent publishes to one scope -/

/-- C1: the claim fails on the code — `Publish` holds no lock between its
`GetLatestSequence` read and its `CreateEvent` insert, so two concurrent
publishes to the same (initially empty) scope can both read latest = 0 and
both store sequence 1.  This exhibits a legal interleaving (read1, read2,
write1, write2) whose final store holds both events with the duplicate
sequence list `[1, 1]` instead of `{1, 2}`. -/
theorem concurrent_publish_duplicate_sequence :
    ∃ s : TwoPubState,
      Relation.ReflTransGen (TwoPubStep "e1" "e2" pubEv1 pubEv2 0 0)
        ⟨[], none, false, none, false⟩ s
      ∧ s.w1 = true ∧ s.w2 = true
      ∧ s.store.map (fun e => e.event_id) = ["e1", "e2"]
      ∧ s.store.map (fun e => e.sequence) = [1, 1] := by
  have h1 : TwoPubStep "e1" "e2" pubEv1 pubEv2 0 0
      ⟨[], none, false, none, false⟩ ⟨[], some 1, false, none, false⟩ :=
    TwoPubStep.read1 ⟨[], none, false, none, false⟩ rfl
  have h2 : TwoPubStep "e1" "e2" pubEv1 pubEv2 0 0
      ⟨[], some 1, false, none, false⟩ ⟨[], some 1, false, some 1, false⟩ :=
    TwoPubStep.read2 ⟨[], some 1, false, none, false⟩ rfl
  have h3 : TwoPubStep "e1" "e2" pubEv1 pubEv2 0 0
      ⟨[], some 1, false, some 1, false⟩
      ⟨[storedOfEvent "e1" pubEv1 0 1], some 1, true, some 1, false⟩ :=
    TwoPubStep.write1 ⟨[], some 1, false, some 1, false⟩ 1 rfl rfl rfl
  have h4 : TwoPubStep "e1" "e2" pubEv1 pubEv2 0 0
      ⟨[storedOfEvent "e1" pubEv1 0 1], some 1, true, some 1, false⟩
      ⟨[storedOfEvent "e1" pubEv1 0 1, storedOfEvent "e2" pubEv2 0 1],
        some 1, true, some 1, true⟩ :=
    TwoPubStep.write2 ⟨[storedOfEvent "e1" pubEv1 0 1], some 1, true, some 1, false⟩ 1
      rfl rfl (by decide)
  exact ⟨⟨[storedOfEvent "e1" pubEv1 0 1, storedOfEvent "e2" pubEv2 0 1],
      some 1, true, some 1, true⟩,
    (((Relation.ReflTransGen.refl.tail h1).tail h2).tail h3).tail h4,
    rfl, rfl, by decide, by decide⟩

/-! ### C9 — catch-up handoff across the historical/live boundary -/

/-- C9: the claim fails on the code.  `Subscribe` registers the live
subscription first (which the claim requires), but the replay then queries
up to the scope's latest sequence *at replay time* with no de-duplication,
so an event published between registration and the historical snapshot is
delivered twice: the publish broadcasts it to the already-registered
subscriber, and the replay fetches and sends it again.  Concretely: the
subscriber of `c9Req` is registered; `c9Ev` is published to scope `"s"`
(stored with sequence 1 and delivered live); the subsequent replay from
sequence 1 sends the same stored event once more. -/
theorem subscribe_handoff_double_delivery :
    (Publish [] [("sub1", subscriberOfRequest c9Req)] "g" 0 ⟨some c9Ev⟩).deliveries =
      [("sub1", DeliveryOutcome.delivered)]
    ∧ (Publish [] [("sub1", subscriberOfRequest c9Req)] "g" 0 ⟨some c9Ev⟩).store =
      [storedOfEvent "e1" c9Ev 5 1]
    ∧ sendHistoricalEvents [storedOfEvent "e1" c9Ev 5 1] c9Req =
      .ok [storedOfEvent "e1" c9Ev 5 1] := by
  exact ⟨rfl, rfl, rfl⟩

end Fuwa
